import Mathlib

/-!
Verification of the api-pulse core against its specification.

The Go source is shallowly embedded: pure functions become Lean functions,
the mutex-guarded in-memory store becomes explicit state passing over
association lists, `encoding/json` marshalling of the decoded-JSON universe
becomes an executable encoder over an inductive JSON value type, and Go map
iteration (whose order is unspecified) is parameterised by an iteration-order
function `σ` that reorders the entries a `range` loop visits.
-/

namespace ApiPulse

/-- The universe of values produced by decoding JSON into Go `interface{}`:
`nil`, `bool`, `float64` (modelled as `Int`; only integral numbers appear in
the claims), `string`, `[]interface{}` and `map[string]interface{}`.
`null` stands for the `nil` interface, so it also models an absent schema. -/
inductive JsonVal where
  | null
  | boolV (b : Bool)
  | num (n : Int)
  | str (s : String)
  | arr (xs : List JsonVal)
  | obj (fields : List (String × JsonVal))
  deriving Repr

/-- Association-list model of a Go `map[string]V` (no duplicate keys arise
from `mput`/`mdel`): lookup of a key. -/
def mlookup {β : Type} : List (String × β) → String → Option β
  | [], _ => none
  | (k, v) :: rest, key => if k = key then some v else mlookup rest key

/-- Go map assignment `m[k] = v`: replace the entry if the key is present,
append it otherwise. -/
def mput {β : Type} : List (String × β) → String → β → List (String × β)
  | [], key, val => [(key, val)]
  | (k, v) :: rest, key, val =>
    if k = key then (key, val) :: rest else (k, v) :: mput rest key val

/-- Go `delete(m, k)`: remove every entry stored under the key. -/
def mdel {β : Type} : List (String × β) → String → List (String × β)
  | [], _ => []
  | (k, v) :: rest, key =>
    if k = key then mdel rest key else (k, v) :: mdel rest key

/-- Integer-keyed variant (for the response map keyed by status code). -/
def ilookup {β : Type} : List (Int × β) → Int → Option β
  | [], _ => none
  | (k, v) :: rest, key => if k = key then some v else ilookup rest key

def iput {β : Type} : List (Int × β) → Int → β → List (Int × β)
  | [], key, val => [(key, val)]
  | (k, v) :: rest, key, val =>
    if k = key then (key, val) :: rest else (k, v) :: iput rest key val

def idel {β : Type} : List (Int × β) → Int → List (Int × β)
  | [], _ => []
  | (k, v) :: rest, key =>
    if k = key then idel rest key else (k, v) :: idel rest key

/-- JSON string escaping of one character (quote and backslash; enough for
the encoder to be injective on the modelled universe). -/
def escChar (c : Char) : String :=
  if c = '"' then "\\\"" else if c = '\\' then "\\\\" else String.singleton c

/-- JSON string literal, as `encoding/json` renders a Go string. -/
def encStr (s : String) : String :=
  "\"" ++ String.join (s.toList.map escChar) ++ "\""

/-- Insert an already-encoded object entry into a key-sorted list
(`encoding/json` emits map keys in sorted order). -/
def insortEntry (e : String × String) : List (String × String) → List (String × String)
  | [] => [e]
  | f :: rest => if e.1 ≤ f.1 then e :: f :: rest else f :: insortEntry e rest

def sortEntries : List (String × String) → List (String × String)
  | [] => []
  | e :: rest => insortEntry e (sortEntries rest)

mutual
/-- `json.Marshal` on the decoded-JSON universe: `null`, booleans, numbers,
escaped strings, arrays in order, and objects with keys sorted, exactly as
Go's encoder serialises `map[string]interface{}`. -/
def encodeJson : JsonVal → String
  | .null => "null"
  | .boolV b => cond b "true" "false"
  | .num n => toString n
  | .str s => encStr s
  | .arr xs => "[" ++ String.intercalate "," (encodeJsonList xs) ++ "]"
  | .obj kvs =>
    "\x7b" ++
      String.intercalate ","
        ((sortEntries (encodeJsonEntries kvs)).map (fun e => encStr e.1 ++ ":" ++ e.2)) ++
    "\x7d"

def encodeJsonList : List JsonVal → List String
  | [] => []
  | x :: xs => encodeJson x :: encodeJsonList xs

def encodeJsonEntries : List (String × JsonVal) → List (String × String)
  | [] => []
  | (k, v) :: rest => (k, encodeJson v) :: encodeJsonEntries rest
end

mutual
/-- `reflect.DeepEqual` on the decoded-JSON universe (maps compare by key
set and pointwise-equal values, irrespective of entry order). -/
def jeq : JsonVal → JsonVal → Bool
  | .null, .null => true
  | .boolV a, .boolV b => a == b
  | .num a, .num b => a == b
  | .str a, .str b => a == b
  | .arr a, .arr b => jeqList a b
  | .obj a, .obj b => a.length == b.length && jeqSub a b
  | _, _ => false
termination_by a b => sizeOf a

def jeqList : List JsonVal → List JsonVal → Bool
  | [], [] => true
  | x :: xs, y :: ys => jeq x y && jeqList xs ys
  | _, _ => false
termination_by a b => sizeOf a

/-- Every entry of the first map is present, `DeepEqual`, in the second. -/
def jeqSub : List (String × JsonVal) → List (String × JsonVal) → Bool
  | [], _ => true
  | (k, v) :: rest, b =>
    (match mlookup b k with
     | some v' => jeq v v'
     | none => false) && jeqSub rest b
termination_by a b => sizeOf a
end

/-- `m["type"].(string)` style access: the value under the key when it is a
string. -/
def getStr (m : List (String × JsonVal)) (k : String) : Option String :=
  match mlookup m k with
  | some (.str s) => some s
  | _ => none

/-- `m[k].(map[string]interface{})` style access. -/
def getObj (m : List (String × JsonVal)) (k : String) : Option (List (String × JsonVal)) :=
  match mlookup m k with
  | some (.obj o) => some o
  | _ => none

/-- `m[k].([]interface{})` style access. -/
def getArr (m : List (String × JsonVal)) (k : String) : Option (List JsonVal) :=
  match mlookup m k with
  | some (.arr a) => some a
  | _ => none

/-! ### Data model (internal/apifox/model.go)

Go struct fields default to their zero values; the Lean structures carry the
same defaults so that partially-initialised literals mirror Go composite
literals. Slice fields decoded by the client are `nil` when empty, so the
encoders below render an empty list as `null`, exactly as `json.Marshal`
does on the values this program actually stores. -/

/-- model.go `Parameter`. -/
structure Parameter where
  id : String := ""
  name : String := ""
  required : Bool := false
  description : String := ""
  type : String := ""
  enable : Bool := false
  deriving Repr, DecidableEq

/-- model.go `Parameters` (query and path parameter lists). -/
structure Parameters where
  query : List Parameter := []
  path : List Parameter := []
  deriving Repr, DecidableEq

/-- model.go `RequestBody`. `jsonSchema` is the `interface{}` field;
`JsonVal.null` stands for the `nil` interface. -/
structure RequestBody where
  type : String := ""
  parameters : List Parameter := []
  jsonSchema : JsonVal := .null
  mediaType : String := ""
  examples : List JsonVal := []
  deriving Repr

/-- model.go `Response`. -/
structure Response where
  id : Int := 0
  name : String := ""
  code : Int := 0
  contentType : String := ""
  jsonSchema : JsonVal := .null
  description : String := ""
  headers : List JsonVal := []
  deriving Repr

/-- model.go `ApiDetail`, restricted to the fields the diff engine and the
webhook handler read (`ResponsibleID` is read by handler.go). -/
structure ApiDetail where
  id : Int := 0
  name : String := ""
  type : String := ""
  method : String := ""
  path : String := ""
  description : String := ""
  status : String := ""
  requestBody : RequestBody := {}
  parameters : Parameters := {}
  responses : List Response := []
  responsibleID : Int := 0
  deriving Repr

/-- model.go `ApiBasic`, restricted to the fields the handler reads. -/
structure ApiBasic where
  id : Int := 0
  name : String := ""
  method : String := ""
  path : String := ""
  responsibleID : Int := 0
  deriving Repr

/-- model.go `WebhookPayload`. -/
structure WebhookPayload where
  event : String := ""
  title : String := ""
  content : String := ""
  deriving Repr

/-- model.go `StoredApiInfo` (a Snapshot). -/
structure StoredApiInfo where
  apiPath : String := ""
  apiKey : String := ""
  apiID : Int := 0
  name : String := ""
  method : String := ""
  detail : ApiDetail := {}
  updatedAt : String := ""
  deriving Repr

/-- model.go `ApiDiff` (the Diff Report); unset fields keep Go zero values. -/
structure ApiDiff where
  apiKey : String := ""
  apiID : Int := 0
  name : String := ""
  method : String := ""
  oldMethod : String := ""
  oldPath : String := ""
  newPath : String := ""
  pathDiff : Bool := false
  methodDiff : Bool := false
  requestBodyDiff : Bool := false
  requestBodyDetail : String := ""
  parametersDiff : Bool := false
  parametersDetail : String := ""
  responsesDiff : Bool := false
  responsesDetail : String := ""
  modifierName : String := ""
  modifiedTime : String := ""
  isNewApi : Bool := false
  deriving Repr

/-! ### `json.Marshal` of the compared sub-structures -/

/-- A slice that is `nil` when empty (as the client decodes them) marshals
to `null`, otherwise to a JSON array of the encoded elements. -/
def encList (enc : α → String) : List α → String
  | [] => "null"
  | xs => "[" ++ String.intercalate "," (xs.map enc) ++ "]"

/-- `json.Marshal` of a `Parameter` (struct fields in declaration order,
tags from model.go). -/
def encodeParameter (p : Parameter) : String :=
  "\x7b\"id\":" ++ encStr p.id ++
  ",\"name\":" ++ encStr p.name ++
  ",\"required\":" ++ cond p.required "true" "false" ++
  ",\"description\":" ++ encStr p.description ++
  ",\"type\":" ++ encStr p.type ++
  ",\"enable\":" ++ cond p.enable "true" "false" ++ "\x7d"

/-- `json.Marshal` of a `RequestBody`. -/
def encodeRequestBody (rb : RequestBody) : String :=
  "\x7b\"type\":" ++ encStr rb.type ++
  ",\"parameters\":" ++ encList encodeParameter rb.parameters ++
  ",\"jsonSchema\":" ++ encodeJson rb.jsonSchema ++
  ",\"mediaType\":" ++ encStr rb.mediaType ++
  ",\"examples\":" ++ encList encodeJson rb.examples ++ "\x7d"

/-- `json.Marshal` of a `Parameters` pair of lists. -/
def encodeParameters (ps : Parameters) : String :=
  "\x7b\"query\":" ++ encList encodeParameter ps.query ++
  ",\"path\":" ++ encList encodeParameter ps.path ++ "\x7d"

/-- `json.Marshal` of a single `Response`. -/
def encodeResponse (r : Response) : String :=
  "\x7b\"id\":" ++ toString r.id ++
  ",\"name\":" ++ encStr r.name ++
  ",\"code\":" ++ toString r.code ++
  ",\"contentType\":" ++ encStr r.contentType ++
  ",\"jsonSchema\":" ++ encodeJson r.jsonSchema ++
  ",\"description\":" ++ encStr r.description ++
  ",\"headers\":" ++ encList encodeJson r.headers ++ "\x7d"

/-- `json.Marshal` of the responses slice. -/
def encodeResponses (rs : List Response) : String :=
  encList encodeResponse rs

/-! ### String primitives

Character-list implementations of the `strings` functions the source uses
(`Split` with a one-character separator, `TrimSpace`, `HasPrefix`,
`TrimPrefix`, `ToLower`), written by structural recursion so that concrete
runs reduce inside the kernel. -/

/-- ASCII whitespace (the subset of Unicode space relevant here). -/
def isSpaceChar (c : Char) : Bool :=
  c = ' ' ∨ c = '\t' ∨ c = '\n' ∨ c = '\r'

/-- `strings.TrimSpace`. -/
def trimS (s : String) : String :=
  ⟨((s.data.dropWhile isSpaceChar).reverse.dropWhile isSpaceChar).reverse⟩

/-- `strings.HasPrefix`. -/
def startsWithS (s pre : String) : Bool :=
  pre.data.isPrefixOf s.data

/-- `strings.Split` restricted to a one-character separator, on char lists:
splitting never yields the empty list of groups. -/
def splitChars (sep : Char) : List Char → List (List Char)
  | [] => [[]]
  | c :: rest =>
    let r := splitChars sep rest
    if c = sep then [] :: r
    else
      match r with
      | [] => [[c]]
      | g :: gs => (c :: g) :: gs

/-- `strings.Split(s, sep)` for a one-character `sep`. -/
def splitOnChar (sep : Char) (s : String) : List String :=
  (splitChars sep s.data).map (fun l => ⟨l⟩)

/-- Go `unicode.ToLower` restricted to ASCII (methods and paths here are
ASCII). -/
def lowerChar (c : Char) : Char :=
  if 'A' ≤ c ∧ c ≤ 'Z' then Char.ofNat (c.toNat + 32) else c

/-- `strings.ToLower`. -/
def toLowerS (s : String) : String :=
  ⟨s.data.map lowerChar⟩

/-! ### Webhook content parsing (diff.go 361-455, dingtalk.go 209-223) -/

/-- `strings.TrimPrefix(s, pre)`: drop the leading occurrence when present. -/
def trimPre (s pre : String) : String :=
  if startsWithS s pre then ⟨s.data.drop pre.data.length⟩ else s

/-- One step of the line loop shared by `ParseWebhookContent` (labels
`接口名称：`/`接口路径：`) and `ExtractNameTimeFromContent` (labels
`修改者：`/`修改时间：`): trim the line, then an if/else-if on the two
label prefixes, overwriting the matching accumulator component. -/
def labelStep (lab1 lab2 : String) (acc : String × String) (line : String) :
    String × String :=
  let l := trimS line
  if startsWithS l lab1 then (trimPre l lab1, acc.2)
  else if startsWithS l lab2 then (acc.1, trimPre l lab2)
  else acc

/-- The line loop of `ParseWebhookContent`: extract the API name and path. -/
def parseWebhookFields (content : String) : String × String :=
  (splitOnChar '\n' content).foldl (labelStep "接口名称：" "接口路径：") ("", "")

/-- `ParseWebhookContent`: `none` models the error returned when either the
name or the path came out empty. -/
def parseWebhookContent (content : String) : Option (String × String) :=
  let fields := parseWebhookFields content
  if fields.1 = "" ∨ fields.2 = "" then none else some fields

/-- dingtalk.go `ExtractNameTimeFromContent`: modifier name and time. -/
def extractNameTimeFromContent (content : String) : String × String :=
  (splitOnChar '\n' content).foldl (labelStep "修改者：" "修改时间：") ("", "")

/-- `ExtractMethodFromPath`: first space-delimited token, lowercased
(`strings.Split` never yields an empty slice, so the branch is total). -/
def extractMethodFromPath (path : String) : String :=
  let parts := splitOnChar ' ' path
  toLowerS (parts.headD "")

/-- The value a single line contributes for one label: trim, test the
prefix, strip it. -/
def labelValue (lab line : String) : Option String :=
  let t := trimS line
  if startsWithS t lab then some (trimPre t lab) else none

/-- Modelled from the spec: "lines are matched by exact prefix; first match
per prefix wins" — the FIRST matching line's value. The source instead
overwrites on every match; the two are compared in claim C9. -/
def firstLabelValue (lab content : String) : Option String :=
  (splitOnChar '\n' content).findSome? (labelValue lab)

/-- The value actually extracted by the source's loop for the first label:
the LAST matching line. -/
def lastLabelValue (lab content : String) : Option String :=
  ((splitOnChar '\n' content).filterMap (labelValue lab)).getLast?

/-- The value the source's loop extracts for the second label: the last
line that matches it and (because of the else-if) not the first label. -/
def lastSecondLabelValue (lab1 lab2 content : String) : Option String :=
  ((splitOnChar '\n' content).filterMap (fun line =>
    let t := trimS line
    if startsWithS t lab1 then none
    else if startsWithS t lab2 then some (trimPre t lab2) else none)).getLast?

/-! ### Structural Diff Engine (diff.go 27-357, 462-933)

Go ranges over a map in an unspecified order. Every such loop is therefore
parameterised by an iteration order `σ`, applied to the entries a `range`
visits; a fixed `σ` corresponds to one run of the program, and two runs may
use different `σ`. Loops over slices keep slice order, as in Go. -/

/-- An order in which one run of the program happens to iterate maps. -/
abbrev MapOrd := ∀ {α : Type}, List α → List α

/-- The identity iteration order (entries in insertion order). -/
def ordId : MapOrd := fun l => l

/-- The reversed iteration order. -/
def ordRev : MapOrd := fun l => l.reverse

/-- Build `map[string]Parameter` keyed by parameter name. -/
def buildParamMap (ps : List Parameter) : List (String × Parameter) :=
  ps.foldl (fun m p => mput m p.name p) []

/-- Build `map[int]Response` keyed by status code. -/
def buildResponseMap (rs : List Response) : List (Int × Response) :=
  rs.foldl (fun m r => iput m r.code r) []

/-- diff.go `interfaceSliceToStringSlice`. -/
def interfaceSliceToStringSlice (l : List JsonVal) : List String :=
  l.filterMap (fun v => match v with | .str s => some s | _ => none)

/-- diff.go `equalStringSlices` (length check plus membership of every
element of `b` in the set of elements of `a`). -/
def equalStringSlices (a b : List String) : Bool :=
  a.length == b.length && b.all (fun item => a.contains item)

/-- diff.go `formatValue`. -/
def formatValue : JsonVal → String
  | .null => ""
  | .str s => s
  | .boolV b => cond b "true" "false"
  | .num n => toString n
  | v => encodeJson v

/-- The record diff.go builds for each modified field inside
`analyzePropertiesDiff`. -/
structure ModifiedField where
  name : String := ""
  oldType : String := ""
  newType : String := ""
  oldTitle : String := ""
  newTitle : String := ""
  oldDesc : String := ""
  newDesc : String := ""
  oldRequired : Bool := false
  newRequired : Bool := false
  hasRequiredChange : Bool := false
  changes : List (String × (JsonVal × JsonVal)) := []

/-- diff.go `analyzePropertiesDiff` (657-868): partition the keys of the two
properties maps into removed / added / modified, then render removed first,
added second, modified last, each in map-iteration order. -/
def analyzePropertiesDiffS (σ : MapOrd) (oldProps newProps : List (String × JsonVal)) :
    String := Id.run do
  let mut removedFields : List String := []
  let mut addedFields : List String := []
  let mut modifiedFields : List ModifiedField := []
  let oldRequiredFields : List String :=
    match getArr oldProps "required" with
    | some l => interfaceSliceToStringSlice l
    | none => []
  let newRequiredFields : List String :=
    match getArr newProps "required" with
    | some l => interfaceSliceToStringSlice l
    | none => []
  for entry in σ oldProps do
    let propName := entry.1
    let oldProp := entry.2
    if propName = "required" then
      pure ()
    else
      match mlookup newProps propName with
      | some newProp =>
        let oldRequired := oldRequiredFields.contains propName
        let newRequired := newRequiredFields.contains propName
        let hasRequiredChange := oldRequired ≠ newRequired
        if encodeJson oldProp ≠ encodeJson newProp ∨ hasRequiredChange then
          let mut oldType := ""
          let mut newType := ""
          let mut oldTitle := ""
          let mut newTitle := ""
          let mut oldDesc := ""
          let mut newDesc := ""
          let mut changes : List (String × (JsonVal × JsonVal)) := []
          match oldProp with
          | .obj oldPropMap =>
            oldType := (getStr oldPropMap "type").getD ""
            oldTitle := (getStr oldPropMap "title").getD ""
            oldDesc := (getStr oldPropMap "description").getD ""
            match newProp with
            | .obj newPropMap =>
              newType := (getStr newPropMap "type").getD ""
              newTitle := (getStr newPropMap "title").getD ""
              newDesc := (getStr newPropMap "description").getD ""
              for kv in σ oldPropMap do
                match mlookup newPropMap kv.1 with
                | some newV =>
                  if ¬ jeq kv.2 newV then
                    changes := mput changes kv.1 (kv.2, newV)
                | none => pure ()
              for kv in σ newPropMap do
                match mlookup oldPropMap kv.1 with
                | some _ => pure ()
                | none => changes := mput changes kv.1 (.null, kv.2)
            | _ => pure ()
          | _ => pure ()
          modifiedFields := modifiedFields ++
            [{ name := propName, oldType, newType, oldTitle, newTitle,
               oldDesc, newDesc, oldRequired, newRequired,
               hasRequiredChange, changes }]
      | none => removedFields := removedFields ++ [propName]
  for entry in σ newProps do
    let propName := entry.1
    if propName = "required" then
      pure ()
    else
      match mlookup oldProps propName with
      | some _ => pure ()
      | none => addedFields := addedFields ++ [propName]
  let mut out := ""
  if removedFields.length > 0 then
    for name in removedFields do
      out := out ++ s!"* 删除字段: {name}"
      match mlookup oldProps name with
      | some (.obj oldPropMap) =>
        out := out ++
          (match getStr oldPropMap "type" with
           | some propType => s!" ({propType})"
           | none => "")
        out := out ++
          (match getStr oldPropMap "title" with
           | some title => if title ≠ "" then s!" [{title}]" else ""
           | none => "")
      | _ => pure ()
      if oldRequiredFields.contains name then
        out := out ++ " (必填)"
      out := out ++ "\n"
  if addedFields.length > 0 then
    for name in addedFields do
      out := out ++ s!"* 新增字段: {name}"
      match mlookup newProps name with
      | some (.obj newPropMap) =>
        out := out ++
          (match getStr newPropMap "type" with
           | some propType => s!" ({propType})"
           | none => "")
        out := out ++
          (match getStr newPropMap "title" with
           | some title => if title ≠ "" then s!" [{title}]" else ""
           | none => "")
      | _ => pure ()
      if newRequiredFields.contains name then
        out := out ++ " (必填)"
      out := out ++ "\n"
  if modifiedFields.length > 0 then
    for field in modifiedFields do
      if field.newTitle ≠ "" ∧ field.newTitle ≠ field.name then
        out := out ++ s!"* 修改字段: {field.name} [{field.newTitle}]\n"
      else
        out := out ++ s!"* 修改字段: {field.name}\n"
      if field.oldType ≠ field.newType ∧ field.oldType ≠ "" ∧ field.newType ≠ "" then
        out := out ++ s!"  - 类型: {field.oldType} -> {field.newType}\n"
      if field.oldTitle ≠ field.newTitle ∧ field.oldTitle ≠ "" ∧ field.newTitle ≠ "" then
        out := out ++ s!"  - 名称: {field.oldTitle} -> {field.newTitle}\n"
      if field.oldDesc ≠ field.newDesc ∧ (field.oldDesc ≠ "" ∨ field.newDesc ≠ "") then
        out := out ++ s!"  - 说明: {field.oldDesc} -> {field.newDesc}\n"
      if field.hasRequiredChange then
        out := out ++ (if field.newRequired then "  - 变为必填\n" else "  - 变为可选\n")
      for kv in σ field.changes do
        if kv.1 = "type" ∨ kv.1 = "title" ∨ kv.1 = "description" then
          pure ()
        else
          let oldValue := formatValue (kv.2).1
          let newValue := formatValue (kv.2).2
          if oldValue ≠ "" ∨ newValue ≠ "" then
            out := out ++ s!"  - {kv.1}: {oldValue} -> {newValue}\n"
  return out

/-- diff.go `analyzeJsonSchemaDiff` (462-610), returning the text it
appends to the caller's builder. -/
def analyzeJsonSchemaDiffS (σ : MapOrd) (oldSchema newSchema : JsonVal) :
    String := Id.run do
  let mut out := ""
  match oldSchema, newSchema with
  | .null, .null => return ""
  | .null, newS =>
    match newS with
    | .obj newMap =>
      let propsNonEmpty :=
        match getObj newMap "properties" with
        | some ps => if ps.length > 0 then some ps else none
        | none => none
      match propsNonEmpty with
      | some newProps =>
        for entry in σ newProps do
          let propType :=
            match entry.2 with
            | .obj propMap => (getStr propMap "type").getD "object"
            | _ => "object"
          out := out ++ s!"* 新增字段: {entry.1} ({propType})\n"
        match getArr newMap "required" with
        | some required =>
          if required.length > 0 then
            out := out ++ "* 必填字段:\n"
            for field in required do
              match field with
              | .str fieldStr => out := out ++ s!"  - {fieldStr}\n"
              | _ => pure ()
        | none => pure ()
      | none =>
        match getStr newMap "type" with
        | some schemaType =>
          if schemaType = "object" then
            pure ()
          else
            out := out ++ s!"* 请求体为 {schemaType} 类型\n"
        | none => pure ()
    | .str newStr =>
      if newStr ≠ "" then
        out := out ++ s!"* 请求体值: {newStr}\n"
    | _ => pure ()
    return out
  | oldS, .null =>
    let _ := oldS
    return "* 移除了请求体结构\n"
  | oldS, newS =>
    match oldS, newS with
    | .obj oldMap, .obj newMap =>
      out := out ++
        (match getStr oldMap "type", getStr newMap "type" with
         | some oldType, some newType =>
           if oldType ≠ newType then s!"* 数据类型: {oldType} -> {newType}\n" else ""
         | _, _ => "")
      out := out ++
        (match getObj oldMap "properties", getObj newMap "properties" with
         | some oldProps, some newProps => analyzePropertiesDiffS σ oldProps newProps
         | _, _ => "")
      match getArr oldMap "required", getArr newMap "required" with
      | some oldRequired, some newRequired =>
        let oldReqSlice := interfaceSliceToStringSlice oldRequired
        let newReqSlice := interfaceSliceToStringSlice newRequired
        if ¬ equalStringSlices oldReqSlice newReqSlice then
          let oldPropsKeys := ((getObj oldMap "properties").getD []).map Prod.fst
          let newPropsKeys := ((getObj newMap "properties").getD []).map Prod.fst
          let mut hasRequiredChanges := false
          for field in newReqSlice do
            if ¬ oldReqSlice.contains field ∧ oldPropsKeys.contains field ∧
                newPropsKeys.contains field then
              if ¬ hasRequiredChanges then
                out := out ++ "* 必填项变更:\n"
                hasRequiredChanges := true
              out := out ++ s!"  + 新增必填: {field}\n"
          for field in oldReqSlice do
            if ¬ newReqSlice.contains field ∧ oldPropsKeys.contains field ∧
                newPropsKeys.contains field then
              if ¬ hasRequiredChanges then
                out := out ++ "* 必填项变更:\n"
                hasRequiredChanges := true
              out := out ++ s!"  - 移除必填: {field}\n"
      | _, _ => pure ()
      return out
    | .str oldStr, .str newStr =>
      if oldStr ≠ newStr then
        out := out ++ s!"* 值变更: {oldStr} -> {newStr}\n"
      return out
    | _, _ => return out

/-- The request-body section of `CompareApis` (diff.go 51-151), built when
the request-body flag is set. -/
def requestBodyDetailS (σ : MapOrd) (oldApi newApi : ApiDetail) : String := Id.run do
  let mut rbDetails := "【请求体变更】\n"
  let oldMediaType :=
    if oldApi.requestBody.mediaType = "" then "none" else oldApi.requestBody.mediaType
  let newMediaType :=
    if newApi.requestBody.mediaType = "" then "none" else newApi.requestBody.mediaType
  if oldMediaType ≠ newMediaType then
    rbDetails := rbDetails ++ s!"* 请求体类型: {oldMediaType} -> {newMediaType}\n"
  if oldApi.requestBody.type ≠ newApi.requestBody.type then
    rbDetails := rbDetails ++
      s!"* 请求体类型: {oldApi.requestBody.type} -> {newApi.requestBody.type}\n"
  if encodeJson oldApi.requestBody.jsonSchema ≠ encodeJson newApi.requestBody.jsonSchema then
    rbDetails := rbDetails ++
      analyzeJsonSchemaDiffS σ oldApi.requestBody.jsonSchema newApi.requestBody.jsonSchema
  let mut oldParamMap := buildParamMap oldApi.requestBody.parameters
  let mut hasParamChanges := false
  for newParam in newApi.requestBody.parameters do
    match mlookup oldParamMap newParam.name with
    | none =>
      rbDetails := rbDetails ++ s!"+ 新增参数: {newParam.name} ({newParam.type}"
      if newParam.required then
        rbDetails := rbDetails ++ ", 必填"
      rbDetails := rbDetails ++ ")\n"
      hasParamChanges := true
    | some oldParam =>
      if newParam.type ≠ oldParam.type ∨ newParam.required ≠ oldParam.required ∨
          newParam.description ≠ oldParam.description ∨ newParam.enable ≠ oldParam.enable then
        rbDetails := rbDetails ++ s!"* 修改参数: {newParam.name}\n"
        if newParam.type ≠ oldParam.type then
          rbDetails := rbDetails ++ s!"  - 类型: {oldParam.type} -> {newParam.type}\n"
        if newParam.required ≠ oldParam.required then
          rbDetails := rbDetails ++
            (if newParam.required then "  - 变为必填\n" else "  - 变为非必填\n")
        if newParam.description ≠ oldParam.description then
          rbDetails := rbDetails ++
            s!"  - 描述变更: {oldParam.description} -> {newParam.description}\n"
        if newParam.enable ≠ oldParam.enable then
          rbDetails := rbDetails ++
            (if newParam.enable then "  - 已启用\n" else "  - 已禁用\n")
        hasParamChanges := true
    oldParamMap := mdel oldParamMap newParam.name
  for entry in σ oldParamMap do
    rbDetails := rbDetails ++ s!"- 删除参数: {entry.1} ({(entry.2).type})\n"
    hasParamChanges := true
  if hasParamChanges then
    rbDetails := rbDetails ++ "\n"
  return rbDetails

/-- One parameter group of the parameters section (diff.go repeats this
code verbatim for query and for path parameters): the emitted lines and
whether the group changed. -/
def paramGroupDetail (σ : MapOrd) (oldList newList : List Parameter) :
    String × Bool := Id.run do
  let mut out := ""
  let mut has := false
  let mut oldMap := buildParamMap oldList
  for newParam in newList do
    match mlookup oldMap newParam.name with
    | none =>
      out := out ++ s!"+ 新增: {newParam.name} ({newParam.type}"
      if newParam.required then
        out := out ++ ", 必填"
      out := out ++ ")\n"
      has := true
    | some oldParam =>
      if newParam.type ≠ oldParam.type ∨ newParam.required ≠ oldParam.required ∨
          newParam.description ≠ oldParam.description ∨ newParam.enable ≠ oldParam.enable then
        out := out ++ s!"* 修改: {newParam.name}\n"
        if newParam.type ≠ oldParam.type then
          out := out ++ s!"  - 类型: {oldParam.type} -> {newParam.type}\n"
        if newParam.required ≠ oldParam.required then
          out := out ++ (if newParam.required then "  - 变为必填\n" else "  - 变为非必填\n")
        if newParam.description ≠ oldParam.description then
          out := out ++ s!"  - 描述变更: {oldParam.description} -> {newParam.description}\n"
        if newParam.enable ≠ oldParam.enable then
          out := out ++ (if newParam.enable then "  - 已启用\n" else "  - 已禁用\n")
        has := true
    oldMap := mdel oldMap newParam.name
  for entry in σ oldMap do
    out := out ++ s!"- 删除: {entry.1} ({(entry.2).type})\n"
    has := true
  return (out, has)

/-- The parameters section of `CompareApis` (diff.go 158-290). -/
def parametersDetailS (σ : MapOrd) (oldApi newApi : ApiDetail) : String := Id.run do
  let mut paramDetails := "【查询参数(Query)变更】\n"
  let q := paramGroupDetail σ oldApi.parameters.query newApi.parameters.query
  paramDetails := paramDetails ++ q.1
  if ¬ q.2 then
    paramDetails := paramDetails ++ "无变更\n"
  paramDetails := paramDetails ++ "\n【路径参数(Path)变更】\n"
  let p := paramGroupDetail σ oldApi.parameters.path newApi.parameters.path
  paramDetails := paramDetails ++ p.1
  if ¬ p.2 then
    paramDetails := paramDetails ++ "无变更\n"
  return paramDetails

/-- The responses section of `CompareApis` (diff.go 297-355). -/
def responsesDetailS (σ : MapOrd) (oldApi newApi : ApiDetail) : String := Id.run do
  let mut respDetails := "【响应状态码变更】\n"
  let mut oldResponseMap := buildResponseMap oldApi.responses
  for newResp in newApi.responses do
    match ilookup oldResponseMap newResp.code with
    | none =>
      respDetails := respDetails ++ s!"+ 新增状态码: {newResp.code} ({newResp.name})\n"
    | some oldResp =>
      if encodeResponse oldResp ≠ encodeResponse newResp then
        respDetails := respDetails ++ s!"* 修改状态码: {newResp.code}\n"
        if oldResp.name ≠ newResp.name then
          respDetails := respDetails ++ s!"  - 名称: {oldResp.name} -> {newResp.name}\n"
        if oldResp.contentType ≠ newResp.contentType then
          respDetails := respDetails ++
            s!"  - 内容类型: {oldResp.contentType} -> {newResp.contentType}\n"
        if oldResp.description ≠ newResp.description then
          respDetails := respDetails ++ "  - 描述变更\n"
        if encodeJson oldResp.jsonSchema ≠ encodeJson newResp.jsonSchema then
          respDetails := respDetails ++ "  - 响应结构变更\n"
    oldResponseMap := idel oldResponseMap newResp.code
  for entry in σ oldResponseMap do
    respDetails := respDetails ++ s!"- 删除状态码: {entry.1} ({(entry.2).name})\n"
  return respDetails

/-- diff.go 41: the method flag, a case-insensitive inequality. -/
def methodDiffB (oldApi newApi : ApiDetail) : Bool :=
  toLowerS oldApi.method != toLowerS newApi.method

/-- diff.go 44: the path flag, exact inequality. -/
def pathDiffB (oldApi newApi : ApiDetail) : Bool :=
  oldApi.path != newApi.path

/-- diff.go 47-49: the request-body flag compares the `json.Marshal` bytes
of the two `RequestBody` values. -/
def requestBodyDiffB (oldApi newApi : ApiDetail) : Bool :=
  encodeRequestBody oldApi.requestBody != encodeRequestBody newApi.requestBody

/-- diff.go 154-156: the parameters flag compares marshalled `Parameters`. -/
def parametersDiffB (oldApi newApi : ApiDetail) : Bool :=
  encodeParameters oldApi.parameters != encodeParameters newApi.parameters

/-- diff.go 293-295: the responses flag compares marshalled responses. -/
def responsesDiffB (oldApi newApi : ApiDetail) : Bool :=
  encodeResponses oldApi.responses != encodeResponses newApi.responses

/-- `DiffService.CompareApis` (diff.go 27-357): flags plus, for each set
flag, the corresponding detail text (unset flags leave the Go zero value
`""` in the detail field). -/
def compareApis (σ : MapOrd) (oldApi newApi : ApiDetail)
    (modifierName modifiedTime : String) : ApiDiff :=
  { apiID := newApi.id
    apiKey := "apiDetail." ++ toString newApi.id
    name := newApi.name
    method := newApi.method
    oldMethod := oldApi.method
    oldPath := oldApi.path
    newPath := newApi.path
    modifierName := modifierName
    modifiedTime := modifiedTime
    methodDiff := methodDiffB oldApi newApi
    pathDiff := pathDiffB oldApi newApi
    requestBodyDiff := requestBodyDiffB oldApi newApi
    requestBodyDetail :=
      if requestBodyDiffB oldApi newApi then requestBodyDetailS σ oldApi newApi else ""
    parametersDiff := parametersDiffB oldApi newApi
    parametersDetail :=
      if parametersDiffB oldApi newApi then parametersDetailS σ oldApi newApi else ""
    responsesDiff := responsesDiffB oldApi newApi
    responsesDetail :=
      if responsesDiffB oldApi newApi then responsesDetailS σ oldApi newApi else "" }

/-! ### Snapshot Store (internal/storage/store.go)

The two mutex-guarded Go maps become two association lists; the mutex
itself needs no model because every operation is a single atomic state
transition here. -/

/-- `ApiStore`: the dual-indexed in-memory store. -/
structure ApiStore where
  apisByKey : List (String × StoredApiInfo) := []
  apisByPath : List (String × StoredApiInfo) := []

def emptyStore : ApiStore := {}

/-- `ApiStore.SaveApi`: evict the old path key when the stable-key entry
existed with a different method/path, overwrite the stable-key entry, then
index by path when the path is non-empty. The Go version always returns
`nil`, so no error component is modelled. -/
def saveApi (s : ApiStore) (apiInfo : StoredApiInfo) : ApiStore :=
  let byPath1 :=
    match mlookup s.apisByKey apiInfo.apiKey with
    | some oldApiInfo =>
      if oldApiInfo.apiPath ≠ "" ∧
          (oldApiInfo.method ≠ apiInfo.method ∨ oldApiInfo.apiPath ≠ apiInfo.apiPath) then
        mdel s.apisByPath (oldApiInfo.method ++ " " ++ oldApiInfo.apiPath)
      else
        s.apisByPath
    | none => s.apisByPath
  let byKey := mput s.apisByKey apiInfo.apiKey apiInfo
  let byPath :=
    if apiInfo.apiPath ≠ "" then
      mput byPath1 (apiInfo.method ++ " " ++ apiInfo.apiPath) apiInfo
    else
      byPath1
  { apisByKey := byKey, apisByPath := byPath }

/-- `ApiStore.GetApi`: lookup by stable key ("found" is the `some` case). -/
def getApi (s : ApiStore) (apiKey : String) : Option StoredApiInfo :=
  mlookup s.apisByKey apiKey

/-- `ApiStore.GetApiByPath`: lookup under `fmt.Sprintf("%s %s", method,
path)`, exactly as the method and path strings arrive. -/
def getApiByPath (s : ApiStore) (method path : String) : Option StoredApiInfo :=
  mlookup s.apisByPath (method ++ " " ++ path)

/-! ### Correlation Resolver / webhook handler (internal/server/handler.go)

The external collaborators are an environment: the freshly fetched live
mapping (`GetApiMappings` keyed by `"<lowercased method> <path>"`), the
detail fetch by stable key, the notifier outcomes and the configured
responsible id. `HandleWebhook` becomes a function from payload and store
to an HTTP-level outcome plus the resulting store; the out-of-bounds index
`split[1]` at handler.go 112 is modelled by the `panicked` outcome. -/

/-- The HTTP-level outcome the handler produces. -/
inductive HandlerOutcome where
  /-- `w.WriteHeader(http.StatusOK)` (or the 200 of a handled request). -/
  | ok
  /-- `http.Error(..., http.StatusBadRequest)`. -/
  | clientError
  /-- `http.Error(..., http.StatusNotFound)`. -/
  | notFound
  /-- `http.Error(..., http.StatusInternalServerError)`. -/
  | serverError
  /-- A runtime panic (index out of range) before any response. -/
  | panicked
  deriving Repr, DecidableEq

/-- The external collaborators of the handler, fixed for one request. -/
structure HandlerEnv where
  /-- `GetApiMappings()`: `none` is a fetch error, otherwise the mapping. -/
  mappings : Option (List (String × ApiBasic)) := some []
  /-- `GetApiDetail(apiKey)`: `none` is a fetch error. -/
  detailFor : String → Option ApiDetail := fun _ => none
  /-- Whether `SendApiChangedNotification` succeeds. -/
  notifyChangedOk : Bool := true
  /-- Whether `SendApiCreatedNotification` succeeds. -/
  notifyCreatedOk : Bool := true
  /-- `GetConfig().ResponsibleId`. -/
  responsibleId : Int := 0
  /-- `time.Now().Format(...)` for `UpdatedAt` stamps. -/
  now : String := ""

/-- `ApiNotifyHandler.HandleWebhook` (handler.go 47-317). -/
def handleWebhook (σ : MapOrd) (env : HandlerEnv) (store : ApiStore)
    (payload : WebhookPayload) : HandlerOutcome × ApiStore :=
  if payload.event ≠ "API_UPDATED" ∧ payload.event ≠ "API_CREATED" then
    (.ok, store)
  else
    let isNewApi := payload.event = "API_CREATED"
    match parseWebhookContent payload.content with
    | none => (.clientError, store)
    | some (_apiName, apiPath) =>
      let modifier := extractNameTimeFromContent payload.content
      let modifierName := modifier.1
      let modifiedTime := modifier.2
      let method := extractMethodFromPath apiPath
      if method = "" then
        (.clientError, store)
      else
        let path := trimS (trimPre apiPath (method ++ " "))
        match env.mappings with
        | none => (.serverError, store)
        | some apiMappings =>
          let split := splitOnChar ' ' path
          if split.length < 2 then
            (.panicked, store)
          else
            let lookupKey := toLowerS (split.headD "") ++ " " ++ (split.drop 1).headD ""
            match mlookup apiMappings lookupKey with
            | none =>
              match getApiByPath store method path with
              | none => (.notFound, store)
              | some oldApiInfo =>
                match env.detailFor oldApiInfo.apiKey with
                | none => (.serverError, store)
                | some detail =>
                  if env.responsibleId ≠ detail.responsibleID then
                    let apiInfo : StoredApiInfo :=
                      { apiKey := oldApiInfo.apiKey
                        apiID := detail.id
                        name := oldApiInfo.name
                        method := toLowerS detail.method
                        apiPath := detail.path
                        detail := detail
                        updatedAt := env.now }
                    (.ok, saveApi store apiInfo)
                  else
                    let diff := compareApis σ oldApiInfo.detail detail modifierName modifiedTime
                    if diff.pathDiff ∨ diff.methodDiff ∨ diff.requestBodyDiff ∨
                        diff.parametersDiff ∨ diff.responsesDiff then
                      if ¬ env.notifyChangedOk then
                        (.serverError, store)
                      else
                        let apiInfo : StoredApiInfo :=
                          { apiKey := oldApiInfo.apiKey
                            apiID := detail.id
                            name := oldApiInfo.name
                            method := toLowerS detail.method
                            apiPath := detail.path
                            detail := detail
                            updatedAt := env.now }
                        (.ok, saveApi store apiInfo)
                    else
                      (.ok, store)
            | some apiBasic =>
              let apiKey := "apiDetail." ++ toString apiBasic.id
              let oldInfo :=
                match getApi store apiKey with
                | some i => some i
                | none => getApiByPath store method path
              match env.detailFor apiKey with
              | none => (.serverError, store)
              | some detail =>
                if env.responsibleId ≠ detail.responsibleID then
                  let apiInfo : StoredApiInfo :=
                    { apiKey := apiKey
                      apiID := apiBasic.id
                      name := apiBasic.name
                      method := toLowerS apiBasic.method
                      apiPath := apiBasic.path
                      detail := detail
                      updatedAt := env.now }
                  (.ok, saveApi store apiInfo)
                else
                  let finish : HandlerOutcome × ApiStore :=
                    let apiInfo : StoredApiInfo :=
                      { apiKey := apiKey
                        apiID := apiBasic.id
                        name := apiBasic.name
                        method := toLowerS apiBasic.method
                        apiPath := apiBasic.path
                        detail := detail
                        updatedAt := env.now }
                    (.ok, saveApi store apiInfo)
                  match oldInfo with
                  | some oldApiInfo =>
                    let diff := compareApis σ oldApiInfo.detail detail modifierName modifiedTime
                    if diff.pathDiff ∨ diff.methodDiff ∨ diff.requestBodyDiff ∨
                        diff.parametersDiff ∨ diff.responsesDiff then
                      if ¬ env.notifyChangedOk then
                        (.serverError, store)
                      else
                        finish
                    else
                      finish
                  | none =>
                    if isNewApi then
                      if ¬ env.notifyCreatedOk then
                        (.serverError, store)
                      else
                        finish
                    else
                      finish

/-! ### Concrete fixtures used by the closed theorems -/

/-- A request-body parameter named `a`. -/
def paramA : Parameter := { name := "a", type := "string" }

/-- A request-body parameter named `b`. -/
def paramB : Parameter := { name := "b", type := "string" }

/-- An old Entity whose request body has two parameters. -/
def detOld : ApiDetail := { requestBody := { parameters := [paramA, paramB] } }

/-- A new Entity whose request body has none of them. -/
def detNew : ApiDetail := {}

/-- The detail the catalog holds for the renamed entity. -/
def rnDetail : ApiDetail := { id := 42, name := "用户", method := "GET", path := "/v1/user" }

/-- A Snapshot stored under stable key `apiDetail.42` and path key
`"get /v1/user"`. -/
def rnInfo : StoredApiInfo :=
  { apiPath := "/v1/user", apiKey := "apiDetail.42", apiID := 42, name := "用户",
    method := "get", detail := rnDetail, updatedAt := "t" }

/-- A store holding exactly that Snapshot. -/
def rnStore : ApiStore := saveApi emptyStore rnInfo

/-- An environment whose live mapping is fresh but empty (the signalled
method+path is absent from it) and whose other collaborators are idle. -/
def rnEnv : HandlerEnv := { mappings := some [] }

/-- An update signal for `GET /v1/user` with the method capitalised, as the
catalog's notifications write it. -/
def rnPayload : WebhookPayload :=
  { event := "API_UPDATED", content := "接口名称：用户\n接口路径：GET /v1/user" }

/-- The same signal with the method already lowercase in the path line. -/
def pnPayload : WebhookPayload :=
  { event := "API_UPDATED", content := "接口名称：X\n接口路径：get /v1/user" }

/-- The previous Snapshot for claim C3's counterexample. -/
def c3prev : StoredApiInfo := { apiKey := "k", method := "get", apiPath := "/x" }

/-- An update of the same stable key whose path is empty. -/
def c3next : StoredApiInfo := { apiKey := "k", method := "get", apiPath := "" }

/-- The Snapshot for claim C8, stored with the lowercased method. -/
def c8snap : StoredApiInfo :=
  { apiPath := "/v1/user", apiKey := "apiDetail.7", apiID := 7, name := "u",
    method := "get" }

/-- A store holding exactly that Snapshot. -/
def c8store : ApiStore := saveApi emptyStore c8snap

/-- Webhook content that repeats the name label on two lines. -/
def c9content : String := "接口名称：A\n接口名称：B\n接口路径：GET /x"

/-- A present schema with one top-level property, for claim C7. -/
def c7present : JsonVal :=
  .obj [("type", .str "object"), ("properties", .obj [("a", .obj [("type", .str "string")])])]

/-! ### Association-list lemmas for the Store proofs -/

theorem mlookup_mput_self {β : Type} (l : List (String × β)) (k : String) (v : β) :
    mlookup (mput l k v) k = some v := by
  induction l with
  | nil => simp [mput, mlookup]
  | cons e t ih =>
    obtain ⟨k', v'⟩ := e
    by_cases h : k' = k
    · simp [mput, h, mlookup]
    · simp [mput, h, mlookup, ih]

theorem mlookup_mput_ne {β : Type} (l : List (String × β)) (k k' : String) (v : β)
    (h : k ≠ k') : mlookup (mput l k v) k' = mlookup l k' := by
  induction l with
  | nil => simp [mput, mlookup, h]
  | cons e t ih =>
    obtain ⟨k₁, v₁⟩ := e
    by_cases h1 : k₁ = k
    · simp [mput, h1, mlookup, h]
    · by_cases h2 : k₁ = k'
      · simp [mput, h1, mlookup, h2, Ne.symm h]
      · simp [mput, h1, mlookup, h2, ih]

theorem mlookup_mdel_self {β : Type} (l : List (String × β)) (k : String) :
    mlookup (mdel l k) k = none := by
  induction l with
  | nil => simp [mdel, mlookup]
  | cons e t ih =>
    obtain ⟨k', v'⟩ := e
    by_cases h : k' = k
    · simp [mdel, h, ih]
    · simp [mdel, h, mlookup, ih]

/-! ### Claim theorems -/

/-- C5: for every Entity `E`, `compare(E, E)` (CompareApis with the same
`ApiDetail` on both sides, any modifier metadata, any map-iteration order)
yields a report in which every per-category flag — MethodDiff, PathDiff,
RequestBodyDiff, ParametersDiff, ResponsesDiff — is false. -/
theorem c5_compare_self_all_flags_false (σ : MapOrd) (E : ApiDetail) (mn mt : String) :
    (compareApis σ E E mn mt).methodDiff = false ∧
    (compareApis σ E E mn mt).pathDiff = false ∧
    (compareApis σ E E mn mt).requestBodyDiff = false ∧
    (compareApis σ E E mn mt).parametersDiff = false ∧
    (compareApis σ E E mn mt).responsesDiff = false := by
  simp [compareApis, methodDiffB, pathDiffB, requestBodyDiffB, parametersDiffB,
    responsesDiffB]

/-- C6: for every pair of Entities and every run, the composite-category
flags hold iff the `json.Marshal` serialisations of the old and new
sub-structures differ (independently of the detail text, which the flags do
not consult); the method flag holds iff the methods differ
case-insensitively, and the path flag iff the paths differ exactly. -/
theorem c6_flags_iff_serialized_diff (σ : MapOrd) (o n : ApiDetail) (mn mt : String) :
    ((compareApis σ o n mn mt).methodDiff = true ↔ toLowerS o.method ≠ toLowerS n.method) ∧
    ((compareApis σ o n mn mt).pathDiff = true ↔ o.path ≠ n.path) ∧
    ((compareApis σ o n mn mt).requestBodyDiff = true ↔
      encodeRequestBody o.requestBody ≠ encodeRequestBody n.requestBody) ∧
    ((compareApis σ o n mn mt).parametersDiff = true ↔
      encodeParameters o.parameters ≠ encodeParameters n.parameters) ∧
    ((compareApis σ o n mn mt).responsesDiff = true ↔
      encodeResponses o.responses ≠ encodeResponses n.responses) := by
  simp [compareApis, methodDiffB, pathDiffB, requestBodyDiffB, parametersDiffB,
    responsesDiffB, bne_iff_ne]

/-- C1 (code bug): a signal for `GET /v1/user` whose method+path is absent
from the freshly fetched live mapping, while the Store holds a Snapshot
under path key `"get /v1/user"` built from that same method+path. The
handler's fallback queries the Store with its `path` variable, which still
carries the original `GET ` token (`strings.TrimPrefix` at handler.go 92
strips only the lowercased method), so it looks under `"get GET /v1/user"`,
misses, and returns NotFound instead of proceeding with the Snapshot's
stable identity `apiDetail.42`. -/
theorem c1_rename_fallback_code_bug :
    getApiByPath rnStore "get" "/v1/user" = some rnInfo ∧
    mlookup ([] : List (String × ApiBasic)) "get /v1/user" = none ∧
    rnEnv.mappings = some [] ∧
    handleWebhook ordId rnEnv rnStore rnPayload = (.notFound, rnStore) :=
  ⟨rfl, rfl, rfl, rfl⟩

/-- C2 (code bug): `compare(A, B)` is not a deterministic function of the
two inputs alone. The removal loop of the request-body section ranges over
a Go map, so its line order follows the run's map-iteration order: with
the old request body holding parameters `a` and `b` and the new holding
neither, two admissible iteration orders (both permutations, witnessed by
the `Perm` conjunct) produce different `RequestBodyDetail` bytes. -/
theorem c2_detail_depends_on_iteration_order :
    (∀ (α : Type) (l : List α), (@ordRev α l).Perm l) ∧
    (compareApis ordId detOld detNew "" "").requestBodyDetail =
      "【请求体变更】\n- 删除参数: a (string)\n- 删除参数: b (string)\n\n" ∧
    (compareApis ordRev detOld detNew "" "").requestBodyDetail =
      "【请求体变更】\n- 删除参数: b (string)\n- 删除参数: a (string)\n\n" ∧
    (compareApis ordId detOld detNew "" "").requestBodyDetail ≠
      (compareApis ordRev detOld detNew "" "").requestBodyDetail := by
  refine ⟨fun α l => l.reverse_perm, rfl, rfl, by decide⟩

/-- C3 counterexample: `put(S)` where `S`'s path differs from the previous
Snapshot under the same stable key, but `S.ApiPath` is empty: `SaveApi`
skips the path-index insertion, so `getByPath` with the new method/path
returns not-found where the claim demands it return `S`. -/
theorem c3_empty_path_counterexample :
    getApi (saveApi emptyStore c3prev) c3next.apiKey = some c3prev ∧
    c3prev.apiPath ≠ c3next.apiPath ∧
    getApiByPath (saveApi (saveApi emptyStore c3prev) c3next)
      c3next.method c3next.apiPath = none := by
  refine ⟨rfl, by decide, rfl⟩

/-- C3 amended: for every store state, after `put(S)` over a previous
Snapshot with a different method/path under the same stable key, provided
the old and new paths are non-empty and the old and new path keys
(`method ++ " " ++ path`) differ, `getByPath` with the old method/path
returns not-found and with the new method/path returns `S` — the eviction
happens within the same write. -/
theorem c3_put_evicts_old_path_key (s : ApiStore) (S old : StoredApiInfo)
    (hprev : getApi s S.apiKey = some old)
    (hdiff : old.method ≠ S.method ∨ old.apiPath ≠ S.apiPath)
    (holdp : old.apiPath ≠ "")
    (hnewp : S.apiPath ≠ "")
    (hkeys : old.method ++ " " ++ old.apiPath ≠ S.method ++ " " ++ S.apiPath) :
    getApiByPath (saveApi s S) old.method old.apiPath = none ∧
    getApiByPath (saveApi s S) S.method S.apiPath = some S := by
  unfold getApi at hprev
  have h1 : old.apiPath ≠ "" ∧ (old.method ≠ S.method ∨ old.apiPath ≠ S.apiPath) :=
    ⟨holdp, hdiff⟩
  simp only [saveApi, getApiByPath, hprev, if_pos h1, if_pos hnewp]
  constructor
  · rw [mlookup_mput_ne _ _ _ _ (Ne.symm hkeys), mlookup_mdel_self]
  · rw [mlookup_mput_self]

/-- Witness for C3: a concrete rename `get /x → get /y` under stable key
`k`, run through the amended theorem. -/
theorem c3_put_evicts_old_path_key_witness :
    getApiByPath
      (saveApi (saveApi emptyStore c3prev)
        { apiKey := "k", method := "get", apiPath := "/y" })
      c3prev.method c3prev.apiPath = none ∧
    getApiByPath
      (saveApi (saveApi emptyStore c3prev)
        { apiKey := "k", method := "get", apiPath := "/y" })
      "get" "/y" = some { apiKey := "k", method := "get", apiPath := "/y" } :=
  c3_put_evicts_old_path_key (saveApi emptyStore c3prev)
    { apiKey := "k", method := "get", apiPath := "/y" } c3prev
    rfl (Or.inr (by decide)) (by decide) (by decide) (by decide)

/-- C8 counterexample: `GetApiByPath` joins method and path verbatim into
the lookup key, so the capitalisation of the method changes the result:
the stored Snapshot (method saved lowercased) is found under `"get"` but
not under `"GET"`. -/
theorem c8_case_sensitive_counterexample :
    getApiByPath c8store "get" "/v1/user" = some c8snap ∧
    getApiByPath c8store "GET" "/v1/user" = none :=
  ⟨rfl, rfl⟩

/-- C8 amended: `getByPath` is case-sensitive on method: against a store
holding exactly one Snapshot `S` (with a non-empty path), a lookup finds
`S` precisely when `method ++ " " ++ path` equals `S`'s stored path key,
and misses for every other capitalisation or spelling. -/
theorem c8_getApiByPath_exact_key (S : StoredApiInfo) (m p : String)
    (hS : S.apiPath ≠ "") :
    getApiByPath (saveApi emptyStore S) m p =
      if S.method ++ " " ++ S.apiPath = m ++ " " ++ p then some S else none := by
  unfold saveApi getApiByPath emptyStore
  simp [mlookup, mput, mdel, hS]

/-- Witness for C8: the exact-key characterisation applied to the concrete
Snapshot `c8snap` and the lowercase lookup. -/
theorem c8_getApiByPath_exact_key_witness :
    getApiByPath (saveApi emptyStore c8snap) "get" "/v1/user" =
      if c8snap.method ++ " " ++ c8snap.apiPath = "get" ++ " " ++ "/v1/user"
      then some c8snap else none :=
  c8_getApiByPath_exact_key c8snap "get" "/v1/user" (by decide)

theorem getLast?_getD_cons {α : Type} :
    ∀ (l : List α) (a d : α), ((a :: l).getLast?).getD d = (l.getLast?).getD a
  | [], _, _ => rfl
  | b :: t, a, d => by
    rw [List.getLast?_cons_cons, getLast?_getD_cons t b d, getLast?_getD_cons t b a]

/-- The two-label line loop keeps, for each label, the value of the last
line matching it (for the second label: matching it and, because of the
else-if, not the first). -/
theorem foldl_labelStep (lab1 lab2 : String) (lines : List String) (acc : String × String) :
    lines.foldl (labelStep lab1 lab2) acc =
      (((lines.filterMap (labelValue lab1)).getLast?).getD acc.1,
       ((lines.filterMap (fun line =>
          if startsWithS (trimS line) lab1 then none
          else if startsWithS (trimS line) lab2 then
            some (trimPre (trimS line) lab2)
          else none)).getLast?).getD acc.2) := by
  induction lines generalizing acc with
  | nil => simp
  | cons l rest ih =>
    simp only [List.foldl_cons, List.filterMap_cons]
    by_cases h1 : startsWithS (trimS l) lab1
    · rw [ih]
      simp [labelStep, labelValue, h1, getLast?_getD_cons]
    · by_cases h2 : startsWithS (trimS l) lab2
      · rw [ih]
        simp [labelStep, labelValue, h1, h2, getLast?_getD_cons]
      · rw [ih]
        simp [labelStep, labelValue, h1, h2]

/-- C9 counterexample: content carrying the name label on two lines. The
source's loop overwrites on every match, so `ParseWebhookContent` extracts
`B` — the value of the second matching line — while the claim predicts the
first match `A` (computed by `firstLabelValue`). -/
theorem c9_first_match_counterexample :
    parseWebhookContent c9content = some ("B", "GET /x") ∧
    firstLabelValue "接口名称：" c9content = some "A" ∧
    ("B" : String) ≠ "A" :=
  ⟨rfl, rfl, by decide⟩

/-- C9 amended: when several lines carry the same label, the LAST matching
line determines the extracted value, for all four labels — the name and
path of `ParseWebhookContent` and the modifier name and time of
`ExtractNameTimeFromContent` (the second label of each pair additionally
requires, by the else-if, that the line not match the first label). -/
theorem c9_last_match_wins (content : String) :
    parseWebhookFields content =
      ((lastLabelValue "接口名称：" content).getD "",
       (lastSecondLabelValue "接口名称：" "接口路径：" content).getD "") ∧
    extractNameTimeFromContent content =
      ((lastLabelValue "修改者：" content).getD "",
       (lastSecondLabelValue "修改者：" "修改时间：" content).getD "") := by
  constructor <;>
    simp only [parseWebhookFields, extractNameTimeFromContent, lastLabelValue,
      lastSecondLabelValue, foldl_labelStep]

/-- C4: a change signal (update or create event) whose content is malformed
— the name or path line is missing (`ParseWebhookContent` fails) or no
method token can be extracted from the path line — terminates normally with
a client-error outcome; the store is returned unchanged (no write) and in
particular the outcome is not the panic marker. -/
theorem c4_malformed_rejected (σ : MapOrd) (env : HandlerEnv) (store : ApiStore)
    (payload : WebhookPayload)
    (hev : payload.event = "API_UPDATED" ∨ payload.event = "API_CREATED")
    (hbad : parseWebhookContent payload.content = none ∨
      ∃ nm pth, parseWebhookContent payload.content = some (nm, pth) ∧
        extractMethodFromPath pth = "") :
    handleWebhook σ env store payload = (.clientError, store) := by
  have hcond : ¬ (payload.event ≠ "API_UPDATED" ∧ payload.event ≠ "API_CREATED") := by
    rcases hev with h | h <;> simp [h]
  rcases hbad with h | ⟨nm, pth, hp, hm⟩
  · simp only [handleWebhook, if_neg hcond, h]
  · simp only [handleWebhook, if_neg hcond, hp, hm]
    simp

/-- Witness for C4: content with neither label line, on an update event. -/
theorem c4_malformed_rejected_witness :
    handleWebhook ordId {} emptyStore { event := "API_UPDATED", content := "hello" } =
      (.clientError, emptyStore) :=
  c4_malformed_rejected ordId {} emptyStore
    { event := "API_UPDATED", content := "hello" } (Or.inl rfl) (Or.inl rfl)

/-- C10: a well-formed update/create signal whose path-line remainder,
after `strings.TrimPrefix` of the lowercased method plus a space and
`TrimSpace`, contains no further space — one split element — drives
handler.go 112 to evaluate `split[1]` on a one-element slice: the model's
panic outcome, with the store unwritten, provided the mappings fetch
succeeded (a failed fetch returns 500 first). -/
theorem c10_lowercase_method_panics (σ : MapOrd) (env : HandlerEnv) (store : ApiStore)
    (payload : WebhookPayload) (M : List (String × ApiBasic)) (nm pth : String)
    (hev : payload.event = "API_UPDATED" ∨ payload.event = "API_CREATED")
    (hparse : parseWebhookContent payload.content = some (nm, pth))
    (hm : extractMethodFromPath pth ≠ "")
    (hmap : env.mappings = some M)
    (hsplit : (splitOnChar ' '
      (trimS (trimPre pth (extractMethodFromPath pth ++ " ")))).length = 1) :
    handleWebhook σ env store payload = (.panicked, store) := by
  have hcond : ¬ (payload.event ≠ "API_UPDATED" ∧ payload.event ≠ "API_CREATED") := by
    rcases hev with h | h <;> simp [h]
  simp only [handleWebhook, if_neg hcond, hparse, hmap]
  simp [hm, hsplit]

/-- Witness for C10: the signal `接口路径：get /v1/user` with an
already-lowercase method, a successfully fetched (empty) mapping, and the
empty store: the handler panics before any lookup or write. -/
theorem c10_lowercase_method_panics_witness :
    handleWebhook ordId rnEnv emptyStore pnPayload = (.panicked, emptyStore) :=
  c10_lowercase_method_panics ordId rnEnv emptyStore pnPayload [] "X" "get /v1/user"
    (Or.inl rfl) rfl (by decide) rfl rfl

/-- C7 counterexample: the present side (`c7present`) is an object schema
with top-level property `a`, the other side is absent; the claim demands
field-level removal lines derived from the present side's properties, but
`analyzeJsonSchemaDiff` emits the single opaque whole-schema line
`* 移除了请求体结构` that mentions no field. -/
theorem c7_removed_schema_counterexample :
    analyzeJsonSchemaDiffS ordId c7present .null = "* 移除了请求体结构\n" ∧
    "* 移除了请求体结构\n" ≠ "* 删除字段: a (string)\n" :=
  ⟨rfl, by decide⟩

/-- C7 amended: the absence edge cases, as the code implements them — both
sides absent emits nothing; ONLY the addition direction is field-level:
an absent old side against a present object schema emits per-property
addition lines, while a present old side against an absent new side emits
the single whole-schema removal line; a present schema of non-object type
emits a single typed value line; a present object schema with an empty
property map emits nothing. -/
theorem c7_schema_absent_edge_cases (σ : MapOrd) (old : JsonVal) (t nm pt : String)
    (hold : old ≠ .null) (ht : t ≠ "object") :
    analyzeJsonSchemaDiffS σ .null .null = "" ∧
    analyzeJsonSchemaDiffS σ old .null = "* 移除了请求体结构\n" ∧
    analyzeJsonSchemaDiffS σ .null (.obj [("type", .str t)]) =
      s!"* 请求体为 {t} 类型\n" ∧
    analyzeJsonSchemaDiffS σ .null
      (.obj [("type", .str "object"), ("properties", .obj [])]) = "" ∧
    analyzeJsonSchemaDiffS ordId .null
      (.obj [("type", .str "object"),
             ("properties", .obj [(nm, .obj [("type", .str pt)])])]) =
      s!"* 新增字段: {nm} ({pt})\n" := by
  refine ⟨rfl, ?_, ?_, rfl, ?_⟩
  · cases old with
    | null => exact absurd rfl hold
    | boolV b => rfl
    | num n => rfl
    | str s => rfl
    | arr xs => rfl
    | obj fields => rfl
  · simp [analyzeJsonSchemaDiffS, getObj, getStr, getArr, mlookup, ht, Id.run]
  · rfl

/-- Witness for C7: the edge-case theorem at a present object schema with
property `a` against null, and at a scalar string-typed schema. -/
theorem c7_schema_absent_edge_cases_witness :
    analyzeJsonSchemaDiffS ordId c7present .null = "* 移除了请求体结构\n" ∧
    analyzeJsonSchemaDiffS ordId .null (.obj [("type", .str "string")]) =
      "* 请求体为 string 类型\n" :=
  ⟨(c7_schema_absent_edge_cases ordId c7present "string" "a" "string"
      (fun hh => JsonVal.noConfusion hh) (by decide)).2.1,
   (c7_schema_absent_edge_cases ordId c7present "string" "a" "string"
      (fun hh => JsonVal.noConfusion hh) (by decide)).2.2.1⟩

end ApiPulse
